import Mathlib

/-!
Verification of the Apache Beam kata snippets: the CombinePerKey kata
(`learning/katas/python/Core Transforms/Combine/Combine PerKey/task.py`)
and the windowing ParDo kata
(`learning/katas/python/Windowing/Adding Timestamp/ParDo/task.py`).

The katas call into the external Beam framework for the evaluation of the
pipeline; following the specification, the linear pipeline-evaluation core
(element-wise stages, keyed-reduce stages, fail-fast error propagation) is
modelled here from the spec, while everything that appears literally in the
repository (the literal inputs, `AddTimestampDoFn.process`, `Event.__str__`,
the datetime values) is embedded from the source.
-/

namespace BeamKatas

/-! ## Data model: UTC datetimes and events (from the ParDo kata source) -/

/-- A timezone-aware UTC datetime, as built by
`datetime.datetime(y, m, d, h, mi, s, 0, tzinfo=pytz.UTC)` in the kata. -/
structure DateTimeUTC where
  year : Nat
  month : Nat
  day : Nat
  hour : Nat
  minute : Nat
  second : Nat
deriving DecidableEq

/-- Days since the Unix epoch 1970-01-01 of a proleptic-Gregorian civil date
(the arithmetic underlying Python's `datetime.timestamp()` for UTC values). -/
def daysFromCivil (y m d : Int) : Int :=
  let ys : Int := if m ≤ 2 then y - 1 else y
  let era : Int := (if 0 ≤ ys then ys else ys - 399) / 400
  let yoe : Int := ys - era * 400
  let mp : Int := (m + 9) % 12
  let doy : Int := (153 * mp + 2) / 5 + d - 1
  let doe : Int := yoe * 365 + yoe / 4 - yoe / 100 + doy
  era * 146097 + doe - 719468

/-- `element.timestamp.timestamp()` of the kata: Unix seconds of a UTC
datetime. -/
def DateTimeUTC.timestamp (dt : DateTimeUTC) : Int :=
  daysFromCivil dt.year dt.month dt.day * 86400
    + dt.hour * 3600 + dt.minute * 60 + dt.second

/-- Rendering of a UTC datetime by Python's `str`:
`YYYY-MM-DD HH:MM:SS+00:00`. -/
def pad2 (n : Nat) : String :=
  if n < 10 then "0" ++ toString n else toString n

def DateTimeUTC.render (dt : DateTimeUTC) : String :=
  toString dt.year ++ "-" ++ pad2 dt.month ++ "-" ++ pad2 dt.day ++ " "
    ++ pad2 dt.hour ++ ":" ++ pad2 dt.minute ++ ":" ++ pad2 dt.second
    ++ "+00:00"

/-- The `Event` class of the ParDo kata: an identifier, a category label and
a creation time. -/
structure Event where
  id : String
  event : String
  timestamp : DateTimeUTC
deriving DecidableEq

/-- `Event.__str__` of the kata:
`f'Event(\x7bself.id\x7d, \x7bself.event\x7d, \x7bself.timestamp\x7d)'`. -/
def Event.render (e : Event) : String :=
  "Event(" ++ e.id ++ ", " ++ e.event ++ ", " ++ e.timestamp.render ++ ")"

/-- A record paired with an attached instant:
`window.TimestampedValue(element, unix_timestamp)`. -/
structure TimestampedValue (α : Type) where
  value : α
  timestamp : Int
deriving DecidableEq

/-- `AddTimestampDoFn.process` from the kata: yield the element paired with
its own creation time converted to Unix seconds. -/
def AddTimestampDoFn.process (e : Event) : List (TimestampedValue Event) :=
  [⟨e, e.timestamp.timestamp⟩]

/-! ## The pipeline-evaluation core

Modelled from the spec: the Transform Chain applies element-wise stages
(each record maps to zero or more output records, in input order) and
keyed-reduce stages (group by key, combine all values of a key into one
output record per key). The Beam framework code implementing `ParDo` and
`CombinePerKey` is external to this repository. -/

/-- Modelled from the spec: an element-wise (flat-map) stage applied over a
finite input sequence, preserving input order (`beam.ParDo`). -/
def parDo {α β : Type} (f : α → List β) (l : List α) : List β :=
  l.flatMap f

/-- Modelled from the spec: a fail-fast element-wise stage whose per-record
function may fail; the run aborts on the first failing record, emitting
nothing. -/
def parDoE {α β ε : Type} (f : α → Except ε (List β)) :
    List α → Except ε (List β)
  | [] => .ok []
  | a :: l =>
    match f a with
    | .error e => .error e
    | .ok bs =>
      match parDoE f l with
      | .error e => .error e
      | .ok rest => .ok (bs ++ rest)

/-- The distinct keys of a keyed input, one occurrence each. -/
def keysOf {α β : Type} [DecidableEq α] (l : List (α × β)) : List α :=
  (l.map Prod.fst).dedup

/-- All values of the records of `l` whose key is `k`, in input order. -/
def valuesFor {α β : Type} [DecidableEq α] (k : α) (l : List (α × β)) :
    List β :=
  (l.filter (fun p => decide (p.1 = k))).map Prod.snd

/-- One combined output record per key of `ks`. -/
def combinePerKeyWith {α β : Type} [DecidableEq α] (comb : List β → β)
    (ks : List α) (l : List (α × β)) : List (α × β) :=
  ks.map (fun k => (k, comb (valuesFor k l)))

/-- Modelled from the spec: the keyed-reduce stage (`beam.CombinePerKey`):
group the input records by key and combine all values sharing a key into a
single output value per key. Output key order is unspecified; this
evaluation emits one canonical order, and the order-independence is proved
separately over `combinePerKeyWith`. -/
def combinePerKey {α β : Type} [DecidableEq α] (comb : List β → β)
    (l : List (α × β)) : List (α × β) :=
  combinePerKeyWith comb (keysOf l) l

/-- Python's built-in `sum` over a list of integers: a left fold of `+`
starting from `0`, as used by `beam.CombinePerKey(sum)`. -/
def pySum (l : List Int) : Int :=
  l.foldl (· + ·) 0

/-- The number of distinct keys present in a keyed input. -/
def distinctKeyCount {α β : Type} [DecidableEq α] (l : List (α × β)) : Nat :=
  (l.map Prod.fst).dedup.length

/-! ## The literal kata inputs (from the source) -/

def PLAYER_1 : String := "Player 1"

def PLAYER_2 : String := "Player 2"

def PLAYER_3 : String := "Player 3"

/-- The literal input of the CombinePerKey kata. -/
def combineKataInput : List (String × Int) :=
  [(PLAYER_1, 15), (PLAYER_2, 10), (PLAYER_1, 100),
   (PLAYER_3, 25), (PLAYER_2, 75)]

/-- The CombinePerKey kata pipeline: Create → CombinePerKey(sum). -/
def combineKataPipeline : List (String × Int) :=
  combinePerKey pySum combineKataInput

/-- The literal five-event input of the windowing ParDo kata. -/
def parDoKataInput : List Event :=
  [⟨"1", "book-order", ⟨2020, 3, 4, 0, 0, 0⟩⟩,
   ⟨"2", "pencil-order", ⟨2020, 3, 5, 0, 0, 0⟩⟩,
   ⟨"3", "paper-order", ⟨2020, 3, 6, 0, 0, 0⟩⟩,
   ⟨"4", "pencil-order", ⟨2020, 3, 7, 0, 0, 0⟩⟩,
   ⟨"5", "book-order", ⟨2020, 3, 8, 0, 0, 0⟩⟩]

/-- The ParDo kata pipeline: Create → ParDo(AddTimestampDoFn()). -/
def parDoKataPipeline : List (TimestampedValue Event) :=
  parDo AddTimestampDoFn.process parDoKataInput

/-! ## Theorems -/

/-- Claim C1: for the input
`[("Player 1",15), ("Player 2",10), ("Player 1",100), ("Player 3",25),
("Player 2",75)]`, the keyed-reduce stage that groups by the first pair
component and sums the second produces exactly the output multiset
`{("Player 1",115), ("Player 2",85), ("Player 3",25)}`. -/
theorem combineKata_scenarioA :
    (combineKataPipeline : Multiset (String × Int)) =
      {(PLAYER_1, 115), (PLAYER_2, 85), (PLAYER_3, 25)} := by
  decide

/-- Claim C2: the number of output records of the keyed-reduce stage equals
the number of distinct keys present in the input, and this count is
invariant under any permutation of the input sequence. -/
theorem combinePerKey_length_distinctKeys {α β : Type} [DecidableEq α]
    (comb : List β → β) (l l' : List (α × β)) (h : l.Perm l') :
    (combinePerKey comb l).length = distinctKeyCount l ∧
    distinctKeyCount l = distinctKeyCount l' := by
  constructor
  · simp [combinePerKey, combinePerKeyWith, keysOf, distinctKeyCount]
  · exact ((h.map Prod.fst).dedup).length_eq

/-- Witness for C2 at a concrete permuted pair of inputs. -/
theorem combinePerKey_length_distinctKeys_witness :
    (combinePerKey pySum [("a", (1 : Int)), ("b", 2), ("a", 3)]).length
        = distinctKeyCount [("a", (1 : Int)), ("b", 2), ("a", 3)] ∧
    distinctKeyCount [("a", (1 : Int)), ("b", 2), ("a", 3)]
        = distinctKeyCount [("a", (3 : Int)), ("a", 1), ("b", 2)] :=
  combinePerKey_length_distinctKeys pySum _ _ (by decide)

/-- The timestamp-attachment stage is a per-element map. -/
theorem parDo_addTimestamp_eq_map (l : List Event) :
    parDo AddTimestampDoFn.process l =
      l.map (fun e => ⟨e, e.timestamp.timestamp⟩) := by
  induction l with
  | nil => rfl
  | cons e es ih => simp [parDo, AddTimestampDoFn.process] at ih ⊢; exact ih

/-- Claim C3: the timestamp-attachment element-wise stage outputs the same
records in the same relative order, each paired with an instant equal to
that record's own creation time; in particular this holds of the five-event
kata input, whose attached instants are the Unix times of the five creation
datetimes. -/
theorem parDo_addTimestamp (l : List Event) :
    (parDo AddTimestampDoFn.process l).map TimestampedValue.value = l ∧
    (∀ tv ∈ parDo AddTimestampDoFn.process l,
        tv.timestamp = tv.value.timestamp.timestamp) ∧
    parDoKataPipeline.map TimestampedValue.value = parDoKataInput ∧
    parDoKataPipeline.map TimestampedValue.timestamp =
      [1583280000, 1583366400, 1583452800, 1583539200, 1583625600] := by
  refine ⟨?_, ?_, by decide, by decide⟩
  · rw [parDo_addTimestamp_eq_map, List.map_map]
    exact List.map_id l
  · intro tv htv
    rw [parDo_addTimestamp_eq_map] at htv
    rcases List.mem_map.mp htv with ⟨e, _, rfl⟩
    rfl

/-- Claim C5: an empty input sequence into any stage of the transform chain
(element-wise, fallible element-wise, or keyed-reduce) produces an empty
output sequence, and no error is raised. -/
theorem empty_input_empty_output {α β γ δ ε : Type} [DecidableEq γ]
    (f : α → List β) (g : α → Except ε (List β)) (comb : List δ → δ) :
    parDo f ([] : List α) = [] ∧
    parDoE g ([] : List α) = .ok [] ∧
    combinePerKey comb ([] : List (γ × δ)) = [] :=
  ⟨rfl, rfl, rfl⟩

/-- Claim C4: if an element-wise stage's per-record function fails on some
record, the run aborts reporting the first failure, with no partial emission
of output records (the result is the error of the first failing record, not
a partial output list). -/
theorem parDoE_failFast {α β ε : Type} (f : α → Except ε (List β))
    (pre suf : List α) (a : α) (e : ε)
    (hpre : ∀ x ∈ pre, (f x).isOk) (ha : f a = .error e) :
    parDoE f (pre ++ a :: suf) = .error e := by
  induction pre with
  | nil => simp [parDoE, ha]
  | cons x xs ih =>
    have hx : (f x).isOk := hpre x (by simp)
    rcases hfx : f x with e' | bs
    · rw [hfx] at hx; simp [Except.isOk, Except.toBool] at hx
    · have hrest := ih (fun y hy => hpre y (by simp [hy]))
      simp [parDoE, hfx, hrest]

/-- Witness for C4: a run whose second record fails aborts with that
failure and emits nothing. -/
theorem parDoE_failFast_witness :
    parDoE (fun n : Nat => if n = 0 then .error "bad record" else .ok [n])
      [1, 0, 2] = .error "bad record" :=
  parDoE_failFast _ [1] [2] 0 "bad record" (by decide) rfl

/-- All keys of `l` equal to `k` and `l` nonempty force `keysOf l = [k]`. -/
theorem keysOf_all_eq {α β : Type} [DecidableEq α] (l : List (α × β)) (k : α)
    (hne : l ≠ []) (hk : ∀ p ∈ l, p.1 = k) : keysOf l = [k] := by
  induction l with
  | nil => cases hne rfl
  | cons p ps ih =>
    have hp : p.1 = k := hk p (by simp)
    cases ps with
    | nil => simp [keysOf, List.dedup, hp]
    | cons q qs =>
      have htl : keysOf (q :: qs) = [k] :=
        ih (by simp) (fun r hr => hk r (by simp [hr]))
      have hq : q.1 = k := hk q (by simp)
      have hmem : p.1 ∈ ((q :: qs).map Prod.fst) :=
        List.mem_map.mpr ⟨q, by simp, by rw [hq, hp]⟩
      unfold keysOf at htl ⊢
      rw [List.map_cons, List.dedup_cons_of_mem hmem, htl]

/-- Claim C6: a nonempty keyed-reduce input in which all records share one
key yields exactly one output record, whose value is the combiner applied
across all input values. -/
theorem combinePerKey_singleKey {α β : Type} [DecidableEq α]
    (comb : List β → β) (l : List (α × β)) (k : α)
    (hne : l ≠ []) (hk : ∀ p ∈ l, p.1 = k) :
    combinePerKey comb l = [(k, comb (l.map Prod.snd))] := by
  have hvals : valuesFor k l = l.map Prod.snd := by
    unfold valuesFor
    rw [List.filter_eq_self.mpr (fun p hp => decide_eq_true (hk p hp))]
  unfold combinePerKey combinePerKeyWith
  rw [keysOf_all_eq l k hne hk, List.map_singleton, hvals]

/-- Witness for C6 at a concrete single-key input. -/
theorem combinePerKey_singleKey_witness :
    combinePerKey pySum [("a", (1 : Int)), ("a", 2)] =
      [("a", pySum ([(("a" : String), (1 : Int)), ("a", 2)].map Prod.snd))] :=
  combinePerKey_singleKey pySum _ "a" (by decide) (by decide)

/-- Claim C7: two runs of the keyed-reduce evaluation on the same input —
even runs that enumerate the distinct keys in different orders — produce
identical output multisets, differing at most in key ordering. -/
theorem combinePerKey_idempotent {α β : Type} [DecidableEq α]
    (comb : List β → β) (l : List (α × β)) (ks₁ ks₂ : List α)
    (h₁ : ks₁.Perm (keysOf l)) (h₂ : ks₂.Perm (keysOf l)) :
    (combinePerKeyWith comb ks₁ l : Multiset (α × β)) =
      combinePerKeyWith comb ks₂ l :=
  Multiset.coe_eq_coe.mpr
    ((h₁.trans h₂.symm).map (fun k => (k, comb (valuesFor k l))))

/-- Witness for C7: two key enumeration orders of the same input give the
same output multiset. -/
theorem combinePerKey_idempotent_witness :
    (combinePerKeyWith pySum ["a", "b"]
        [("a", (1 : Int)), ("b", 2)] : Multiset (String × Int)) =
      combinePerKeyWith pySum ["b", "a"] [("a", (1 : Int)), ("b", 2)] :=
  combinePerKey_idempotent pySum _ _ _ (by decide) (by decide)

/-- A left fold of addition equals the accumulator plus the list sum. -/
theorem foldl_add_eq_add_sum (a : Int) (l : List Int) :
    l.foldl (· + ·) a = a + l.sum := by
  induction l generalizing a with
  | nil => simp
  | cons x xs ih => simp [List.foldl_cons, ih, add_assoc]

/-- Claim C9: the combiner actually used by the keyed-reduce kata — integer
summation — is associative and commutative over the values flowing through
it, so the per-key combined result is independent of grouping and of
combination order. -/
theorem pySum_assoc_comm (a b c : Int) (v₁ v₂ : List Int) (hv : v₁.Perm v₂)
    (l l' : List (String × Int)) (hl : l.Perm l') (k : String) :
    pySum [pySum [a, b], c] = pySum [a, pySum [b, c]] ∧
    pySum [a, b] = pySum [b, a] ∧
    pySum v₁ = pySum v₂ ∧
    pySum (valuesFor k l) = pySum (valuesFor k l') := by
  have hperm : ∀ w₁ w₂ : List Int, w₁.Perm w₂ → pySum w₁ = pySum w₂ := by
    intro w₁ w₂ hw
    unfold pySum
    rw [foldl_add_eq_add_sum, foldl_add_eq_add_sum, hw.sum_eq]
  refine ⟨?_, ?_, hperm v₁ v₂ hv, ?_⟩
  · simp [pySum]; ring
  · simp [pySum]; ring
  · exact hperm _ _
      ((hl.filter (fun p : String × Int => decide (p.1 = k))).map Prod.snd)

/-- Witness for C9 at concrete values and permuted inputs. -/
theorem pySum_assoc_comm_witness :
    pySum [pySum [(1 : Int), 2], 3] = pySum [1, pySum [2, 3]] ∧
    pySum [(1 : Int), 2] = pySum [2, 1] ∧
    pySum [(1 : Int), 2, 3] = pySum [3, 1, 2] ∧
    pySum (valuesFor "a" [("a", (1 : Int)), ("b", 2), ("a", 3)]) =
      pySum (valuesFor "a" [("a", (3 : Int)), ("a", 1), ("b", 2)]) :=
  pySum_assoc_comm 1 2 3 _ _ (by decide) _ _ (by decide) "a"

/-- Claim C10: the string rendering of an `Event` is exactly the text
`Event(` followed by the id, `, `, the event label, `, `, the timestamp,
and `)`; instantiated at the first kata event. -/
theorem Event_render_format (e : Event) :
    Event.render e =
      "Event(" ++ e.id ++ ", " ++ e.event ++ ", "
        ++ e.timestamp.render ++ ")" ∧
    Event.render ⟨"1", "book-order", ⟨2020, 3, 4, 0, 0, 0⟩⟩ =
      "Event(1, book-order, 2020-03-04 00:00:00+00:00)" :=
  ⟨rfl, by decide⟩

end BeamKatas
